import Mathlib

/-
Shallow embedding of src/src/components/ImageAnnotator.tsx (the second,
refactored version of the component, lines 457-849 of the concatenated
source file).  The component's React state hooks become fields of a state
record, the useCallback handlers become pure state-transition functions,
and JS Date values become natural-number instants supplied by the caller
at each event.  Screen coordinates are rationals.
-/

/-- Bounding rectangle of the rendered image element, as returned by
getBoundingClientRect at click time. -/
structure Rect where
  left : ℚ
  top : ℚ
  width : ℚ
  height : ℚ
deriving DecidableEq

/-- One pin record, mirroring the component's record with fields
id, x, y, text, timestamp (lines 407-413 of the source). -/
structure Annotation where
  id : Nat
  x : ℚ
  y : ℚ
  text : String
  timestamp : Nat
deriving DecidableEq

/-- The component's state: the useState hooks annotations, selectedAnnotation
(field selectedAnn here), commentText, highlightedId, annotationMode and
popupPosition (field popupPos), the refs isDraggingRef and lastMousePosRef,
and the queue of pending setTimeout highlight-clear callbacks, recorded by
their fire instants in scheduling order. -/
structure AnnotatorState where
  annotations : List Annotation
  selectedAnn : Option Annotation
  commentText : String
  highlightedId : Option Nat
  annotationMode : Bool
  popupPos : Option (ℚ × ℚ)
  isDragging : Bool
  lastMousePos : Option (ℚ × ℚ)
  pendingClears : List Nat
deriving DecidableEq

/-- Initial component state (lines 458-474): empty annotation list, nothing
selected, empty draft, no highlight, annotation mode on by default, no popup,
no drag in progress, no pending timers. -/
def initState : AnnotatorState :=
  { annotations := []
    selectedAnn := none
    commentText := ""
    highlightedId := none
    annotationMode := true
    popupPos := none
    isDragging := false
    lastMousePos := none
    pendingClears := [] }

/-- closePopup (lines 481-485): clears the popup position, the selected pin
and the draft text. -/
def closePopup (s : AnnotatorState) : AnnotatorState :=
  { s with popupPos := none, selectedAnn := none, commentText := "" }

/-- Typing in the popup textarea (line 824): onChange sets commentText. -/
def setCommentText (t : String) (s : AnnotatorState) : AnnotatorState :=
  { s with commentText := t }

/-- handleMarkerClick (lines 487-493): clicking an existing pin selects it,
pre-fills the draft with its current text, and opens the popup at the
marker's on-screen position. -/
def handleMarkerClick (a : Annotation) (markerPos : ℚ × ℚ) (s : AnnotatorState) :
    AnnotatorState :=
  { s with selectedAnn := some a, commentText := a.text, popupPos := some markerPos }

/-- handleSaveComment (lines 495-505): if a pin is selected, map over the
list replacing the matching pin's text by the draft and refreshing its
timestamp exactly when its previous text was empty (JS truthiness of
ann.text), then close the popup.  The instant now stands for new Date(). -/
def handleSaveComment (now : Nat) (s : AnnotatorState) : AnnotatorState :=
  match s.selectedAnn with
  | none => s
  | some sel =>
    closePopup
      { s with annotations := s.annotations.map (fun ann =>
          if ann.id = sel.id then
            { ann with text := s.commentText,
                       timestamp := if ann.text = "" then now else ann.timestamp }
          else ann) }

/-- handleCancel (lines 507-516): if a pin is selected and both its stored
text and the current draft are empty (JS !selectedAnnotation.text and
!commentText), remove it from the list; then close the popup. -/
def handleCancel (s : AnnotatorState) : AnnotatorState :=
  match s.selectedAnn with
  | none => s
  | some sel =>
    closePopup
      (if sel.text = "" ∧ s.commentText = "" then
        { s with annotations := s.annotations.filter (fun ann => ann.id != sel.id) }
      else s)

/-- handleListClick (lines 518-521): selecting a comment-list entry sets the
highlighted id to that pin and schedules a setTimeout that will clear the
highlight 2000 ms later; the timer is appended to the pending queue and is
never cancelled. -/
def handleListClick (a : Annotation) (now : Nat) (s : AnnotatorState) :
    AnnotatorState :=
  { s with highlightedId := some a.id, pendingClears := s.pendingClears ++ [now + 2000] }

/-- Firing of the earliest pending setTimeout callback scheduled by
handleListClick (line 520): setHighlightedId(null), unconditionally.  Since
every timer has the same 2000 ms delay, callbacks fire in scheduling order. -/
def fireHighlightClear (s : AnnotatorState) : AnnotatorState :=
  match s.pendingClears with
  | [] => s
  | _ :: rest => { s with highlightedId := none, pendingClears := rest }

/-- handleImageClick (lines 523-548): if annotation mode is off, the image
element is absent (rect = none models imageRef.current being null) or the
session was classified as a drag, reset the drag flag and return; otherwise
compute the percentage coordinates from the image's bounding rectangle,
append a pin with id annotations.length + 1 and empty text, select it, clear
the draft and open the popup at the click point. -/
def handleImageClick (clientX clientY : ℚ) (rect : Option Rect) (now : Nat)
    (s : AnnotatorState) : AnnotatorState :=
  match rect with
  | none => { s with isDragging := false }
  | some r =>
    if s.annotationMode = false ∨ s.isDragging = true then
      { s with isDragging := false }
    else
      let newAnn : Annotation :=
        { id := s.annotations.length + 1
          x := (clientX - r.left) / r.width * 100
          y := (clientY - r.top) / r.height * 100
          text := ""
          timestamp := now }
      { s with annotations := s.annotations ++ [newAnn]
               selectedAnn := some newAnn
               commentText := ""
               popupPos := some (clientX, clientY) }

/-- handleMouseDown (lines 550-554): if the image element is present, record
the press point and reset the drag flag. -/
def handleMouseDown (clientX clientY : ℚ) (imagePresent : Bool) (s : AnnotatorState) :
    AnnotatorState :=
  if imagePresent = true then
    { s with lastMousePos := some (clientX, clientY), isDragging := false }
  else s

/-- handleMouseMove (lines 556-564): if a press point is recorded and the
image is present and the pointer has moved more than 5 units away from the
press point in either axis, mark the session as a drag.  The recorded press
point is never updated by a move. -/
def handleMouseMove (clientX clientY : ℚ) (imagePresent : Bool) (s : AnnotatorState) :
    AnnotatorState :=
  match s.lastMousePos with
  | none => s
  | some p =>
    if imagePresent = true ∧ (|clientX - p.1| > 5 ∨ |clientY - p.2| > 5) then
      { s with isDragging := true }
    else s

/-- handleMouseUp (lines 566-568): forget the press point. -/
def handleMouseUp (s : AnnotatorState) : AnnotatorState :=
  { s with lastMousePos := none }

/-- The annotation-mode toggle button (line 586): setAnnotationMode of the
negated flag. -/
def toggleAnnotationMode (s : AnnotatorState) : AnnotatorState :=
  { s with annotationMode := !s.annotationMode }

/-- commentsWithText (line 477): the pins whose text is non-empty, in list
order; this is what the side panel renders. -/
def commentsWithText (s : AnnotatorState) : List Annotation :=
  s.annotations.filter (fun a => a.text != "")

/-- A user-interface event, for describing concrete interaction runs. -/
inductive Event where
  | click (cx cy : ℚ) (rect : Option Rect) (now : Nat)
  | mouseDown (cx cy : ℚ) (imagePresent : Bool)
  | mouseMove (cx cy : ℚ) (imagePresent : Bool)
  | mouseUp
  | markerClick (a : Annotation) (pos : ℚ × ℚ)
  | typeText (t : String)
  | save (now : Nat)
  | cancel
  | listClick (a : Annotation) (now : Nat)
  | fireClear
  | toggleMode

/-- Dispatch of one event to the corresponding handler. -/
def step (e : Event) (s : AnnotatorState) : AnnotatorState :=
  match e with
  | Event.click cx cy rect now => handleImageClick cx cy rect now s
  | Event.mouseDown cx cy img => handleMouseDown cx cy img s
  | Event.mouseMove cx cy img => handleMouseMove cx cy img s
  | Event.mouseUp => handleMouseUp s
  | Event.markerClick a pos => handleMarkerClick a pos s
  | Event.typeText t => setCommentText t s
  | Event.save now => handleSaveComment now s
  | Event.cancel => handleCancel s
  | Event.listClick a now => handleListClick a now s
  | Event.fireClear => fireHighlightClear s
  | Event.toggleMode => toggleAnnotationMode s

/-- Run a sequence of events from a state. -/
def runEvents : List Event → AnnotatorState → AnnotatorState
  | [], s => s
  | e :: es, s => runEvents es (step e s)

/-- Apply a sequence of pointer moves (all with the image present). -/
def applyMoves : List (ℚ × ℚ) → AnnotatorState → AnnotatorState
  | [], s => s
  | m :: ms, s => applyMoves ms (handleMouseMove m.1 m.2 true s)

/-- A plain image click: pointer coordinates, the image rectangle at click
time (present), and the click instant. -/
structure Click where
  cx : ℚ
  cy : ℚ
  rect : Rect
  time : Nat

/-- Apply a sequence of plain image clicks. -/
def applyImageClicks : List Click → AnnotatorState → AnnotatorState
  | [], s => s
  | e :: es, s => applyImageClicks es (handleImageClick e.cx e.cy (some e.rect) e.time s)

/-- A 100 by 100 image rectangle at the origin, used in concrete runs. -/
def r0 : Rect := { left := 0, top := 0, width := 100, height := 100 }

/-- C1: the claim says the id assigned after a deletion is previousMax + 1
and that a deleted pin's id is never reassigned.  The code assigns
annotations.length + 1.  Concrete run: a click creates pin 1, text "a" is
typed and saved, a second click creates pin 2 (so previousMax = 2), the
edit on pin 2 is cancelled while empty so pin 2 is deleted, and the next
click creates a pin with id 2 — the deleted pin's id is reassigned and the
new id is 2, not previousMax + 1 = 3. -/
theorem C1_id_reuse :
    ((runEvents [Event.click 10 10 (some r0) 0, Event.typeText "a", Event.save 1,
        Event.click 20 20 (some r0) 2] initState).annotations.map (fun a => a.id))
      = [1, 2] ∧
    ((runEvents [Event.click 10 10 (some r0) 0, Event.typeText "a", Event.save 1,
        Event.click 20 20 (some r0) 2, Event.cancel] initState).annotations.map
          (fun a => a.id))
      = [1] ∧
    ((runEvents [Event.click 10 10 (some r0) 0, Event.typeText "a", Event.save 1,
        Event.click 20 20 (some r0) 2, Event.cancel,
        Event.click 30 30 (some r0) 3] initState).annotations.map (fun a => a.id))
      = [1, 2] := by
  refine ⟨?_, ?_, ?_⟩ <;> rfl

/-- C2 counterexample: a pin is created (stored text empty) and is under
edit; the user types a draft "x" into the textarea and then cancels.  The
claim says cancelling while the pin's stored text is still empty deletes
the pin; the code keeps it, because deletion also requires the draft to be
empty.  The pin survives with stored text still empty. -/
theorem C2_counterexample :
    ((runEvents [Event.click 10 10 (some r0) 0, Event.typeText "x"] initState).selectedAnn.map
        (fun a => (a.id, a.text)) = some (1, "")) ∧
    ((runEvents [Event.click 10 10 (some r0) 0, Event.typeText "x"] initState).commentText
      = "x") ∧
    ((runEvents [Event.click 10 10 (some r0) 0, Event.typeText "x",
        Event.cancel] initState).annotations.map (fun a => (a.id, a.text))
      = [(1, "")]) := by
  exact ⟨by rfl, by rfl, by rfl⟩

/-- C3 counterexample: a pin is created at instant 0 (timestamp 0, stored
text empty) and the editor is open with an empty draft; saving at instant 5
stores empty text.  The claim says a save of empty text never changes the
timestamp; the code sets the timestamp to 5 because the previous text was
empty. -/
theorem C3_counterexample :
    (((runEvents [Event.click 10 10 (some r0) 0] initState).annotations.map
        (fun a => (a.text, a.timestamp))) = [("", 0)]) ∧
    (((runEvents [Event.click 10 10 (some r0) 0, Event.save 5] initState).annotations.map
        (fun a => (a.text, a.timestamp))) = [("", 5)]) := by
  exact ⟨by rfl, by rfl⟩

/-- C8 counterexample: two pins with comments exist; the list entry of pin 1
is selected at instant 10000 (scheduling a clear at 12000) and the entry of
pin 2 at instant 11000 (scheduling a clear at 13000).  The claim says the
newer highlight lasts its own full delay; but the pending clear from the
first selection is not cancelled, and when it fires at 12000 it clears pin
2's highlight while pin 2's own clear (13000) is still pending. -/
theorem C8_counterexample :
    ((runEvents [Event.click 10 10 (some r0) 0, Event.typeText "a", Event.save 1,
        Event.click 20 20 (some r0) 2, Event.typeText "b", Event.save 3,
        Event.listClick { id := 1, x := 10, y := 10, text := "a", timestamp := 1 } 10000,
        Event.listClick { id := 2, x := 20, y := 20, text := "b", timestamp := 3 } 11000]
        initState).highlightedId = some 2) ∧
    ((runEvents [Event.click 10 10 (some r0) 0, Event.typeText "a", Event.save 1,
        Event.click 20 20 (some r0) 2, Event.typeText "b", Event.save 3,
        Event.listClick { id := 1, x := 10, y := 10, text := "a", timestamp := 1 } 10000,
        Event.listClick { id := 2, x := 20, y := 20, text := "b", timestamp := 3 } 11000]
        initState).pendingClears = [12000, 13000]) ∧
    ((runEvents [Event.click 10 10 (some r0) 0, Event.typeText "a", Event.save 1,
        Event.click 20 20 (some r0) 2, Event.typeText "b", Event.save 3,
        Event.listClick { id := 1, x := 10, y := 10, text := "a", timestamp := 1 } 10000,
        Event.listClick { id := 2, x := 20, y := 20, text := "b", timestamp := 3 } 11000,
        Event.fireClear] initState).highlightedId = none) ∧
    ((runEvents [Event.click 10 10 (some r0) 0, Event.typeText "a", Event.save 1,
        Event.click 20 20 (some r0) 2, Event.typeText "b", Event.save 3,
        Event.listClick { id := 1, x := 10, y := 10, text := "a", timestamp := 1 } 10000,
        Event.listClick { id := 2, x := 20, y := 20, text := "b", timestamp := 3 } 11000,
        Event.fireClear] initState).pendingClears = [13000]) := by
  refine ⟨?_, ?_, ?_, ?_⟩ <;> rfl

/-- A pointer move never changes the annotation list. -/
lemma mouseMove_annotations (cx cy : ℚ) (img : Bool) (s : AnnotatorState) :
    (handleMouseMove cx cy img s).annotations = s.annotations := by
  unfold handleMouseMove
  rcases s.lastMousePos with _ | p
  · rfl
  · dsimp only
    split <;> rfl

/-- A pointer move never changes the recorded press point. -/
lemma mouseMove_lastMousePos (cx cy : ℚ) (img : Bool) (s : AnnotatorState) :
    (handleMouseMove cx cy img s).lastMousePos = s.lastMousePos := by
  unfold handleMouseMove
  cases hm : s.lastMousePos with
  | none => exact hm
  | some p =>
    dsimp only
    split
    · rfl
    · exact hm

/-- Once the session is classified as a drag, a further move keeps it so. -/
lemma mouseMove_drag_mono (cx cy : ℚ) (img : Bool) (s : AnnotatorState)
    (h : s.isDragging = true) :
    (handleMouseMove cx cy img s).isDragging = true := by
  unfold handleMouseMove
  rcases s.lastMousePos with _ | p
  · exact h
  · dsimp only
    split
    · rfl
    · exact h

/-- A move exceeding the 5-unit threshold in either axis, with the image
present, classifies the session as a drag. -/
lemma mouseMove_sets_drag (cx cy px py : ℚ) (s : AnnotatorState)
    (hp : s.lastMousePos = some (px, py))
    (hex : |cx - px| > 5 ∨ |cy - py| > 5) :
    (handleMouseMove cx cy true s).isDragging = true := by
  unfold handleMouseMove
  rw [hp]
  dsimp only
  split
  · rfl
  · rename_i hcond
    exact absurd ⟨rfl, hex⟩ hcond

/-- A sequence of moves never changes the annotation list. -/
lemma applyMoves_annotations (ms : List (ℚ × ℚ)) :
    ∀ s : AnnotatorState, (applyMoves ms s).annotations = s.annotations := by
  induction ms with
  | nil => intro s; rfl
  | cons m ms ih =>
    intro s
    show (applyMoves ms (handleMouseMove m.1 m.2 true s)).annotations = s.annotations
    rw [ih, mouseMove_annotations]

/-- A sequence of moves keeps the drag classification. -/
lemma applyMoves_drag_mono (ms : List (ℚ × ℚ)) :
    ∀ s : AnnotatorState, s.isDragging = true → (applyMoves ms s).isDragging = true := by
  induction ms with
  | nil => intro s h; exact h
  | cons m ms ih =>
    intro s h
    exact ih _ (mouseMove_drag_mono m.1 m.2 true s h)

/-- If the recorded press point is (px, py) and some move of the sequence
exceeds the 5-unit threshold relative to it, the sequence ends classified
as a drag. -/
lemma applyMoves_sets_drag (ms : List (ℚ × ℚ)) :
    ∀ (s : AnnotatorState) (px py : ℚ), s.lastMousePos = some (px, py) →
      (∃ m ∈ ms, |m.1 - px| > 5 ∨ |m.2 - py| > 5) →
      (applyMoves ms s).isDragging = true := by
  induction ms with
  | nil =>
    intro s px py _ hex
    simp at hex
  | cons m ms ih =>
    intro s px py hp hex
    obtain ⟨m', hm', hex'⟩ := hex
    show (applyMoves ms (handleMouseMove m.1 m.2 true s)).isDragging = true
    rcases List.mem_cons.mp hm' with h1 | h2
    · subst h1
      exact applyMoves_drag_mono ms _ (mouseMove_sets_drag m'.1 m'.2 px py s hp hex')
    · exact ih _ px py (by rw [mouseMove_lastMousePos]; exact hp) ⟨m', h2, hex'⟩

/-- A click while the session is classified as a drag only resets the drag
flag. -/
lemma handleImageClick_of_dragging (cx cy : ℚ) (rect : Option Rect) (now : Nat)
    (s : AnnotatorState) (h : s.isDragging = true) :
    handleImageClick cx cy rect now s = { s with isDragging := false } := by
  unfold handleImageClick
  rcases rect with _ | r
  · rfl
  · dsimp only
    rw [if_pos (Or.inr h)]

/-- C4: a pointer press, then movement exceeding 5 units from the press
point in either axis, then release and click, never creates a pin: the
annotation store is exactly what it was before the interaction. -/
theorem C4_drag_suppresses_creation (s0 : AnnotatorState) (px py : ℚ)
    (moves : List (ℚ × ℚ))
    (hex : ∃ m ∈ moves, |m.1 - px| > 5 ∨ |m.2 - py| > 5)
    (cx cy : ℚ) (rect : Option Rect) (now : Nat) :
    (handleImageClick cx cy rect now
        (handleMouseUp (applyMoves moves (handleMouseDown px py true s0)))).annotations
      = s0.annotations := by
  have h1 : (handleMouseDown px py true s0).lastMousePos = some (px, py) := by
    unfold handleMouseDown
    rw [if_pos rfl]
  have h2 : (applyMoves moves (handleMouseDown px py true s0)).isDragging = true :=
    applyMoves_sets_drag moves _ px py h1 hex
  have h3 : (handleMouseUp (applyMoves moves (handleMouseDown px py true s0))).isDragging
      = true := h2
  rw [handleImageClick_of_dragging cx cy rect now _ h3]
  show (applyMoves moves (handleMouseDown px py true s0)).annotations = s0.annotations
  rw [applyMoves_annotations]
  unfold handleMouseDown
  rw [if_pos rfl]

/-- Witness for C4 at a concrete interaction: press at the origin, move to
(10, 0) which exceeds the threshold on the x axis, release, click; the
store stays empty. -/
theorem C4_witness :
    (handleImageClick 0 0 (some r0) 0
        (handleMouseUp (applyMoves [(10, 0)] (handleMouseDown 0 0 true initState)))).annotations
      = initState.annotations :=
  C4_drag_suppresses_creation initState 0 0 [(10, 0)]
    ⟨(10, 0), by simp, Or.inl (by norm_num)⟩ 0 0 (some r0) 0

/-- A plain click (annotation mode on, image present, no drag in progress)
appends exactly the pin built from the click data, selects it, clears the
draft and opens the popup at the click point. -/
lemma handleImageClick_create (cx cy : ℚ) (r : Rect) (now : Nat) (s : AnnotatorState)
    (hm : s.annotationMode = true) (hd : s.isDragging = false) :
    handleImageClick cx cy (some r) now s =
      { s with
        annotations := s.annotations ++
          [{ id := s.annotations.length + 1
             x := (cx - r.left) / r.width * 100
             y := (cy - r.top) / r.height * 100
             text := ""
             timestamp := now }]
        selectedAnn := some
          { id := s.annotations.length + 1
            x := (cx - r.left) / r.width * 100
            y := (cy - r.top) / r.height * 100
            text := ""
            timestamp := now }
        commentText := ""
        popupPos := some (cx, cy) } := by
  unfold handleImageClick
  dsimp only
  rw [if_neg (by simp [hm, hd])]

/-- Behaviour of a sequence of plain clicks from any non-dragging state with
annotation mode on: the ids of the result are the old ids followed by the
consecutive integers starting at the old count plus one, and every pin of
the result is an old pin or has empty text. -/
lemma applyImageClicks_spec (es : List Click) :
    ∀ s : AnnotatorState, s.annotationMode = true → s.isDragging = false →
      ((applyImageClicks es s).annotations.map (fun a => a.id)
          = s.annotations.map (fun a => a.id)
            ++ List.range' (s.annotations.length + 1) es.length) ∧
      (∀ a ∈ (applyImageClicks es s).annotations, a ∈ s.annotations ∨ a.text = "") := by
  induction es with
  | nil =>
    intro s _ _
    constructor
    · simp [applyImageClicks, List.range']
    · intro a ha
      exact Or.inl ha
  | cons e es ih =>
    intro s hm hd
    have hcr := handleImageClick_create e.cx e.cy e.rect e.time s hm hd
    have hm' : (handleImageClick e.cx e.cy (some e.rect) e.time s).annotationMode = true := by
      rw [hcr]; exact hm
    have hd' : (handleImageClick e.cx e.cy (some e.rect) e.time s).isDragging = false := by
      rw [hcr]; exact hd
    obtain ⟨ih1, ih2⟩ := ih _ hm' hd'
    constructor
    · show (applyImageClicks es (handleImageClick e.cx e.cy (some e.rect) e.time s)).annotations.map
          (fun a => a.id) = _
      rw [ih1, hcr]
      dsimp only
      simp only [List.map_append, List.map_cons, List.map_nil, List.length_append,
        List.length_cons, List.length_nil, List.length_map, Nat.add_zero, Nat.zero_add]
      rw [List.range'_succ, List.append_assoc, List.singleton_append]
    · intro a ha
      have ha' : a ∈ (applyImageClicks es
          (handleImageClick e.cx e.cy (some e.rect) e.time s)).annotations := ha
      rcases ih2 a ha' with h | h
      · rw [hcr] at h
        rcases List.mem_append.mp h with h' | h'
        · exact Or.inl h'
        · right
          rw [List.mem_singleton.mp h']
      · exact Or.inr h

/-- C5: starting with an empty store, annotation mode on and no drag in
progress, a sequence of N plain image clicks creates exactly N pins with
ids 1..N in click order (each id being the count of existing pins plus one
at its creation), all with empty text. -/
theorem C5_plain_clicks (es : List Click) (s : AnnotatorState)
    (hm : s.annotationMode = true) (hd : s.isDragging = false)
    (h0 : s.annotations = []) :
    (applyImageClicks es s).annotations.length = es.length ∧
    ((applyImageClicks es s).annotations.map (fun a => a.id)
        = List.range' 1 es.length) ∧
    (∀ a ∈ (applyImageClicks es s).annotations, a.text = "") := by
  obtain ⟨h1, h2⟩ := applyImageClicks_spec es s hm hd
  rw [h0] at h1
  simp only [List.map_nil, List.length_nil, List.nil_append, Nat.zero_add] at h1
  refine ⟨?_, h1, ?_⟩
  · have hlen := congrArg List.length h1
    rw [List.length_map] at hlen
    rw [hlen]
    simp
  · intro a ha
    rcases h2 a ha with h | h
    · rw [h0] at h
      exact absurd h (List.not_mem_nil a)
    · exact h

/-- Witness for C5: two plain clicks from the initial state give two pins
with ids 1 and 2 and empty text. -/
theorem C5_witness :
    (applyImageClicks [{ cx := 10, cy := 10, rect := r0, time := 0 },
        { cx := 20, cy := 20, rect := r0, time := 1 }] initState).annotations.length = 2 ∧
    ((applyImageClicks [{ cx := 10, cy := 10, rect := r0, time := 0 },
        { cx := 20, cy := 20, rect := r0, time := 1 }] initState).annotations.map
          (fun a => a.id) = List.range' 1 2) ∧
    (∀ a ∈ (applyImageClicks [{ cx := 10, cy := 10, rect := r0, time := 0 },
        { cx := 20, cy := 20, rect := r0, time := 1 }] initState).annotations,
      a.text = "") :=
  C5_plain_clicks [{ cx := 10, cy := 10, rect := r0, time := 0 },
    { cx := 20, cy := 20, rect := r0, time := 1 }] initState rfl rfl rfl

/-- A pin with empty text, for concrete witnesses. -/
def pinA : Annotation := { id := 1, x := 0, y := 0, text := "", timestamp := 0 }

/-- A pin with non-empty text, for concrete witnesses. -/
def pinB : Annotation := { id := 2, x := 0, y := 0, text := "b", timestamp := 4 }

/-- A state in which the empty-text pin pinA is under edit with an empty
draft, for concrete witnesses. -/
def editingState : AnnotatorState :=
  { annotations := [pinA, pinB]
    selectedAnn := some pinA
    commentText := ""
    highlightedId := none
    annotationMode := true
    popupPos := none
    isDragging := false
    lastMousePos := none
    pendingClears := [] }

/-- C2 (amended): cancelling removes the edited pin exactly when both its
stored text and the current draft are empty; when the stored text is
non-empty, or a non-empty draft has been typed, the store is unchanged; in
every case the edit focus, the popup and the draft are cleared. -/
theorem C2_cancel_semantics (s : AnnotatorState) (sel : Annotation)
    (h : s.selectedAnn = some sel) :
    ((sel.text = "" ∧ s.commentText = "") →
      (handleCancel s).annotations
        = s.annotations.filter (fun ann => ann.id != sel.id)) ∧
    (¬ (sel.text = "" ∧ s.commentText = "") →
      (handleCancel s).annotations = s.annotations) ∧
    (handleCancel s).selectedAnn = none ∧
    (handleCancel s).popupPos = none ∧
    (handleCancel s).commentText = "" := by
  unfold handleCancel
  rw [h]
  dsimp only
  refine ⟨fun hc => ?_, fun hc => ?_, ?_, ?_, ?_⟩
  · rw [if_pos hc]
    rfl
  · rw [if_neg hc]
    rfl
  · split <;> rfl
  · split <;> rfl
  · split <;> rfl

/-- Witness for C2 (amended) at the concrete state editingState: the edited
pin pinA has empty stored text and the draft is empty, so cancel removes it,
and the focus, popup and draft are cleared. -/
theorem C2_cancel_witness :
    ((pinA.text = "" ∧ editingState.commentText = "") →
      (handleCancel editingState).annotations
        = editingState.annotations.filter (fun ann => ann.id != pinA.id)) ∧
    (¬ (pinA.text = "" ∧ editingState.commentText = "") →
      (handleCancel editingState).annotations = editingState.annotations) ∧
    (handleCancel editingState).selectedAnn = none ∧
    (handleCancel editingState).popupPos = none ∧
    (handleCancel editingState).commentText = "" :=
  C2_cancel_semantics editingState pinA rfl

/-- C3 (amended): saving replaces the targeted pin's text by the draft and
sets its timestamp to the save instant exactly when the pin's stored text
was empty before the save, whatever the new text is; a pin whose text was
already non-empty keeps its original timestamp; every other pin and the list
order and length are unchanged. -/
theorem C3_save_semantics (s : AnnotatorState) (sel : Annotation) (now : Nat)
    (h : s.selectedAnn = some sel) :
    (handleSaveComment now s).annotations.length = s.annotations.length ∧
    ∀ i : Nat, ∀ ann : Annotation, s.annotations[i]? = some ann →
      (ann.id = sel.id →
        (handleSaveComment now s).annotations[i]?
          = some { ann with text := s.commentText,
                            timestamp := if ann.text = "" then now else ann.timestamp }) ∧
      (ann.id ≠ sel.id → (handleSaveComment now s).annotations[i]? = some ann) := by
  unfold handleSaveComment
  rw [h]
  dsimp only
  constructor
  · show (s.annotations.map _).length = s.annotations.length
    exact List.length_map s.annotations _
  · intro i ann hi
    constructor
    · intro hid
      show (s.annotations.map _)[i]? = _
      rw [List.getElem?_map, hi]
      dsimp only [Option.map]
      rw [if_pos hid]
    · intro hid
      show (s.annotations.map _)[i]? = _
      rw [List.getElem?_map, hi]
      dsimp only [Option.map]
      rw [if_neg hid]

/-- Witness for C3 (amended) at the concrete state editingState saving at
instant 7: position 0 holds pinA (empty text, id matching the selection) and
position 1 holds pinB (id not matching). -/
theorem C3_save_witness :
    (handleSaveComment 7 editingState).annotations.length
      = editingState.annotations.length ∧
    ∀ i : Nat, ∀ ann : Annotation, editingState.annotations[i]? = some ann →
      (ann.id = pinA.id →
        (handleSaveComment 7 editingState).annotations[i]?
          = some { ann with text := editingState.commentText,
                            timestamp := if ann.text = "" then 7 else ann.timestamp }) ∧
      (ann.id ≠ pinA.id →
        (handleSaveComment 7 editingState).annotations[i]? = some ann) :=
  C3_save_semantics editingState pinA 7 rfl

/-- C6: when annotation mode is off, an image click creates no pin and
leaves the store unchanged; when it is on and no drag is in progress, a
plain image click appends exactly one pin; toggling the mode never touches
the store; and clicking an existing pin opens its editor regardless of the
store — the toggle gates only pin creation. -/
theorem C6_mode_gates (s : AnnotatorState) (cx cy : ℚ) (r : Rect) (now : Nat)
    (a : Annotation) (pos : ℚ × ℚ) :
    (s.annotationMode = false →
      (handleImageClick cx cy (some r) now s).annotations = s.annotations) ∧
    (s.annotationMode = true → s.isDragging = false →
      ∃ p : Annotation,
        (handleImageClick cx cy (some r) now s).annotations = s.annotations ++ [p]) ∧
    (toggleAnnotationMode s).annotations = s.annotations ∧
    (handleMarkerClick a pos s).selectedAnn = some a ∧
    (handleMarkerClick a pos s).annotations = s.annotations := by
  refine ⟨fun hm => ?_, fun hm hd => ?_, rfl, rfl, rfl⟩
  · unfold handleImageClick
    dsimp only
    rw [if_pos (Or.inl hm)]
  · refine ⟨{ id := s.annotations.length + 1
              x := (cx - r.left) / r.width * 100
              y := (cy - r.top) / r.height * 100
              text := ""
              timestamp := now }, ?_⟩
    rw [handleImageClick_create cx cy r now s hm hd]

/-- Witness for C6: from the initial state (mode on) a click appends a pin;
after toggling the mode off, the same click leaves the store unchanged; and
toggling never changes the store. -/
theorem C6_witness :
    (∃ p : Annotation,
      (handleImageClick 30 40 (some r0) 0 initState).annotations
        = initState.annotations ++ [p]) ∧
    (toggleAnnotationMode initState).annotations = initState.annotations ∧
    (handleImageClick 30 40 (some r0) 0 (toggleAnnotationMode initState)).annotations
      = (toggleAnnotationMode initState).annotations :=
  ⟨(C6_mode_gates initState 30 40 r0 0 pinA (0, 0)).2.1 rfl rfl,
   (C6_mode_gates initState 30 40 r0 0 pinA (0, 0)).2.2.1,
   (C6_mode_gates (toggleAnnotationMode initState) 30 40 r0 0 pinA (0, 0)).1 rfl⟩

/-- C7: the comment panel shows exactly the pins with non-empty text, as a
sublist of the store (hence in original creation order); a pin with empty
text is never in it. -/
theorem C7_panel_filter (s : AnnotatorState) :
    List.Sublist (commentsWithText s) s.annotations ∧
    ∀ a : Annotation, a ∈ commentsWithText s ↔ a ∈ s.annotations ∧ a.text ≠ "" := by
  constructor
  · exact List.filter_sublist s.annotations
  · intro a
    simp [commentsWithText]

/-- Witness for C7 at a concrete state: pinA (empty text) is excluded and
pinB (text b) is included in the panel list. -/
theorem C7_witness :
    List.Sublist (commentsWithText editingState) editingState.annotations ∧
    ∀ a : Annotation,
      a ∈ commentsWithText editingState ↔ a ∈ editingState.annotations ∧ a.text ≠ "" :=
  C7_panel_filter editingState

/-- C8 (amended): selecting a comment-list entry sets the single global
highlighted id to that pin — replacing any previous highlight — and appends
a clear timer at now + 2000 without cancelling pending ones, leaving the
store untouched; consequently, after two selections from a state with no
pending timer, the earliest pending clear (from the first selection) fires
first and clears the newer highlight while the newer selection's own timer
is still pending, so a newer highlight need not last its own full delay. -/
theorem C8_highlight_semantics (s : AnnotatorState) (a b : Annotation) (t1 t2 : Nat) :
    (handleListClick a t1 s).highlightedId = some a.id ∧
    (handleListClick a t1 s).pendingClears = s.pendingClears ++ [t1 + 2000] ∧
    (handleListClick a t1 s).annotations = s.annotations ∧
    (s.pendingClears = [] →
      (handleListClick b t2 (handleListClick a t1 s)).highlightedId = some b.id ∧
      (handleListClick b t2 (handleListClick a t1 s)).pendingClears
        = [t1 + 2000, t2 + 2000] ∧
      (fireHighlightClear
          (handleListClick b t2 (handleListClick a t1 s))).highlightedId = none ∧
      (fireHighlightClear
          (handleListClick b t2 (handleListClick a t1 s))).pendingClears
        = [t2 + 2000]) := by
  refine ⟨rfl, rfl, rfl, fun h0 => ?_⟩
  refine ⟨rfl, ?_, ?_, ?_⟩
  · show (s.pendingClears ++ [t1 + 2000]) ++ [t2 + 2000] = _
    rw [h0]
    rfl
  · unfold fireHighlightClear handleListClick
    dsimp only
    rw [h0]
    rfl
  · unfold fireHighlightClear handleListClick
    dsimp only
    rw [h0]
    rfl

/-- Witness for C8 (amended) from the initial state (no pending timer):
selecting pinA at instant 0 and pinB at instant 1000, the first timer fires
and clears pinB's highlight while pinB's own timer (3000) is still
pending. -/
theorem C8_witness :
    (handleListClick pinA 0 initState).highlightedId = some pinA.id ∧
    (handleListClick pinB 1000 (handleListClick pinA 0 initState)).highlightedId
      = some pinB.id ∧
    (fireHighlightClear
        (handleListClick pinB 1000 (handleListClick pinA 0 initState))).highlightedId
      = none ∧
    (fireHighlightClear
        (handleListClick pinB 1000 (handleListClick pinA 0 initState))).pendingClears
      = [3000] :=
  ⟨(C8_highlight_semantics initState pinA pinB 0 1000).1,
   ((C8_highlight_semantics initState pinA pinB 0 1000).2.2.2 rfl).1,
   ((C8_highlight_semantics initState pinA pinB 0 1000).2.2.2 rfl).2.2.1,
   ((C8_highlight_semantics initState pinA pinB 0 1000).2.2.2 rfl).2.2.2⟩

/-- C9: a qualifying click (mode on, no drag, image present) appends a pin
whose stored coordinates are the percentage formulas over the image's
current bounding rectangle, with the sequential id, empty text and the
click instant as timestamp. -/
theorem C9_coordinate_mapping (s : AnnotatorState) (cx cy : ℚ) (r : Rect) (now : Nat)
    (hm : s.annotationMode = true) (hd : s.isDragging = false) :
    ∃ p : Annotation,
      (handleImageClick cx cy (some r) now s).annotations = s.annotations ++ [p] ∧
      p.x = (cx - r.left) / r.width * 100 ∧
      p.y = (cy - r.top) / r.height * 100 ∧
      p.id = s.annotations.length + 1 ∧ p.text = "" ∧ p.timestamp = now := by
  refine ⟨{ id := s.annotations.length + 1
            x := (cx - r.left) / r.width * 100
            y := (cy - r.top) / r.height * 100
            text := ""
            timestamp := now }, ?_, rfl, rfl, rfl, rfl, rfl⟩
  rw [handleImageClick_create cx cy r now s hm hd]

/-- Witness for C9: a click at client point (30, 40) on the 100 by 100
rectangle at the origin creates the first pin with x = 30 and y = 40. -/
theorem C9_witness :
    (∃ p : Annotation,
      (handleImageClick 30 40 (some r0) 0 initState).annotations
        = initState.annotations ++ [p] ∧
      p.x = (30 - r0.left) / r0.width * 100 ∧
      p.y = (40 - r0.top) / r0.height * 100 ∧
      p.id = initState.annotations.length + 1 ∧ p.text = "" ∧ p.timestamp = 0) ∧
    ((30 - r0.left) / r0.width * 100 = 30 ∧ (40 - r0.top) / r0.height * 100 = 40) :=
  ⟨C9_coordinate_mapping initState 30 40 r0 0 rfl rfl,
   by norm_num [r0], by norm_num [r0]⟩

/-- C10: frame effects of the three store operations.  A click either leaves
the store unchanged or appends one pin at the end; a save preserves the id,
x and y of every pin and the list order and length, and changes only the
targeted pin: every pin whose id differs from the selected one (and every
pin, when nothing is selected) is entirely unchanged, text and timestamp
included; a cancel either leaves the store unchanged or removes exactly the
pins carrying the selected id, and its result is always a sublist of the
previous store, so every surviving pin keeps its fields and relative
order. -/
theorem C10_frame (s : AnnotatorState) (cx cy : ℚ) (rect : Option Rect)
    (now now2 : Nat) :
    ((handleImageClick cx cy rect now s).annotations = s.annotations ∨
      ∃ p : Annotation,
        (handleImageClick cx cy rect now s).annotations = s.annotations ++ [p]) ∧
    ((handleSaveComment now2 s).annotations.map (fun a => (a.id, a.x, a.y))
        = s.annotations.map (fun a => (a.id, a.x, a.y))) ∧
    ((handleSaveComment now2 s).annotations.length = s.annotations.length) ∧
    (∀ i : Nat, ∀ ann : Annotation, s.annotations[i]? = some ann →
      ∃ ann2 : Annotation, (handleSaveComment now2 s).annotations[i]? = some ann2 ∧
        ann2.id = ann.id ∧ ann2.x = ann.x ∧ ann2.y = ann.y ∧
        (∀ sel : Annotation, s.selectedAnn = some sel → ann.id ≠ sel.id → ann2 = ann) ∧
        (s.selectedAnn = none → ann2 = ann)) ∧
    ((handleCancel s).annotations = s.annotations ∨
      ∃ sel : Annotation, s.selectedAnn = some sel ∧
        (handleCancel s).annotations
          = s.annotations.filter (fun ann => ann.id != sel.id)) ∧
    List.Sublist (handleCancel s).annotations s.annotations := by
  refine ⟨?_, ?_, ?_, ?_, ?_, ?_⟩
  · unfold handleImageClick
    rcases rect with _ | r
    · exact Or.inl rfl
    · dsimp only
      split
      · exact Or.inl rfl
      · exact Or.inr ⟨_, rfl⟩
  · unfold handleSaveComment
    cases h : s.selectedAnn with
    | none => rfl
    | some sel =>
      show (s.annotations.map _).map _ = _
      rw [List.map_map]
      apply List.map_congr_left
      intro ann _
      by_cases hid : ann.id = sel.id <;> simp [hid]
  · unfold handleSaveComment
    cases h : s.selectedAnn with
    | none => rfl
    | some sel =>
      show (s.annotations.map _).length = s.annotations.length
      exact List.length_map s.annotations _
  · unfold handleSaveComment
    cases h : s.selectedAnn with
    | none =>
      intro i ann hi
      refine ⟨ann, hi, rfl, rfl, rfl, ?_, fun _ => rfl⟩
      intro sel hsel
      exact absurd hsel (by simp)
    | some sel =>
      intro i ann hi
      refine ⟨if ann.id = sel.id then
          { ann with text := s.commentText,
                     timestamp := if ann.text = "" then now2 else ann.timestamp }
        else ann, ?_, ?_, ?_, ?_, ?_, ?_⟩
      · show (s.annotations.map _)[i]? = _
        rw [List.getElem?_map, hi]
        rfl
      · by_cases hid : ann.id = sel.id <;> simp [hid]
      · by_cases hid : ann.id = sel.id <;> simp [hid]
      · by_cases hid : ann.id = sel.id <;> simp [hid]
      · intro sel2 hsel2 hne
        have hss : sel = sel2 := by
          simpa using hsel2
        rw [if_neg (hss ▸ hne)]
      · intro hnone
        exact absurd hnone (by simp)
  · unfold handleCancel
    cases h : s.selectedAnn with
    | none => exact Or.inl rfl
    | some sel =>
      dsimp only
      by_cases hc : sel.text = "" ∧ s.commentText = ""
      · refine Or.inr ⟨sel, rfl, ?_⟩
        rw [if_pos hc]
        rfl
      · left
        rw [if_neg hc]
        rfl
  · unfold handleCancel
    cases h : s.selectedAnn with
    | none => exact List.Sublist.refl _
    | some sel =>
      dsimp only
      by_cases hc : sel.text = "" ∧ s.commentText = ""
      · rw [if_pos hc]
        exact List.filter_sublist s.annotations
      · rw [if_neg hc]
        exact List.Sublist.refl _
